import Mathlib

/-!
Verification of the Call-Center Dashboard's Complaint Record Store and
Reporting Engine, embedded from `src/main.py`.

The embedding models:
* the SQLite-backed store created by `init_db` (table `complaints` with an
  `INTEGER PRIMARY KEY AUTOINCREMENT` id column) as a list of rows plus the
  AUTOINCREMENT sequence counter (`sqlite_sequence` semantics: `DELETE FROM
  complaints` removes rows but never resets the counter);
* `load_sample_data`, `insert_data` (pandas `to_sql` append, no validation),
  the read-and-seed logic at the top of `main`, and the `Clear All Data`
  administrative action (`DELETE FROM complaints`);
* the sidebar filter inputs (`date_range`, `status_filter`, `agent_filter`)
  and the record set the dashboard and export branches actually use;
* the dashboard aggregations: pandas `Series.mean` (`NaN`, i.e. no value,
  on an empty column), the per-agent `groupby('agent_name').agg`, and the
  per-day `groupby('date').size()` trend (pandas groupby sorts keys);
* the CSV serializer `df.to_csv(index=False).encode('utf-8')` at the
  character level: a header line in schema column order followed by one
  comma-joined line per record, every line terminated by a newline.

Timestamps are modelled as a calendar date (days, totally ordered) plus a
time-of-day component; `pd.to_datetime(...).dt.date` is projection to the
date component. SQLite `REAL`/`INTEGER` cells are modelled as rationals so
that the arithmetic means are exact.
-/

/-- A timestamp: calendar date (as a day number, totally ordered) plus a
time-of-day component. `strftime "%Y-%m-%d %H:%M:%S"` keeps both; truncation
to calendar date keeps only `date`. -/
structure Timestamp where
  date : Nat
  tod : Nat
deriving DecidableEq, Repr

/-- A complaint record as submitted to the store, before SQLite assigns the
`id` column: the eight non-id columns of table `complaints` in `init_db`. -/
structure NewRecord where
  timestamp : Timestamp
  location : String
  complaint_type : String
  resolution_time : ℚ
  satisfaction_score : ℚ
  agent_name : String
  call_duration : ℚ
  status : String
deriving DecidableEq, Repr

/-- A stored complaint record: the nine columns of table `complaints`,
`id` first, exactly in the order declared by `init_db`. -/
structure ComplaintRecord where
  id : Nat
  timestamp : Timestamp
  location : String
  complaint_type : String
  resolution_time : ℚ
  satisfaction_score : ℚ
  agent_name : String
  call_duration : ℚ
  status : String
deriving DecidableEq, Repr

/-- The non-id columns of a stored record. -/
def ComplaintRecord.fields (r : ComplaintRecord) : NewRecord :=
  ⟨r.timestamp, r.location, r.complaint_type, r.resolution_time,
   r.satisfaction_score, r.agent_name, r.call_duration, r.status⟩

/-- Attach an id to a submitted record. -/
def NewRecord.withId (i : Nat) (r : NewRecord) : ComplaintRecord :=
  ⟨i, r.timestamp, r.location, r.complaint_type, r.resolution_time,
   r.satisfaction_score, r.agent_name, r.call_duration, r.status⟩

/-- The durable store behind `call_center.db`: the rows of table
`complaints` plus the AUTOINCREMENT sequence (largest id ever assigned,
kept in SQLite's `sqlite_sequence` table). -/
structure Store where
  rows : List ComplaintRecord
  seq : Nat
deriving DecidableEq, Repr

/-- The store `init_db` creates: empty table, sequence at zero. -/
def Store.initial : Store := ⟨[], 0⟩

/-- SQLite id assignment for an appended batch: each new row receives the
next value of the AUTOINCREMENT sequence. -/
def assignIds (seq : Nat) : List NewRecord → List ComplaintRecord
  | [] => []
  | r :: rs => r.withId (seq + 1) :: assignIds (seq + 1) rs

/-- `insert_data` (src/main.py lines 36–39): appends the submitted rows to
table `complaints` via pandas `to_sql(..., if_exists='append')`. No field is
validated; SQLite assigns ids from the AUTOINCREMENT sequence. -/
def insert_data (s : Store) (rs : List NewRecord) : Store :=
  ⟨s.rows ++ assignIds s.seq rs, s.seq + rs.length⟩

/-- The `Clear All Data` administrative action (src/main.py lines 173–179):
`DELETE FROM complaints`. Rows are removed; with an AUTOINCREMENT primary
key the `sqlite_sequence` entry is not reset. -/
def clear_all (s : Store) : Store := ⟨[], s.seq⟩

/-- `SELECT * FROM complaints` (src/main.py lines 64–66): a full-scan read;
it does not mutate the store. -/
def read_all (s : Store) : List ComplaintRecord := s.rows

/-- `load_sample_data` (src/main.py lines 24–34): the fixed 3-record sample
set {NSW,QLD,VIC} × {Billing,Service,Product}, timestamped with the current
time. -/
def load_sample_data (now : Timestamp) : List NewRecord :=
  [⟨now, "NSW", "Billing", 15, 4, "Agent1", 120, "Resolved"⟩,
   ⟨now, "QLD", "Service", 25, 3, "Agent2", 180, "Pending"⟩,
   ⟨now, "VIC", "Product", 10, 5, "Agent3", 90, "Resolved"⟩]

/-- The read-and-seed logic at the top of `main` (src/main.py lines 64–71):
read every row; if none were found, insert the bootstrap sample and use it
as the working record set. Returns the working record set (the non-id
columns, which is all the dashboard uses) and the resulting store. -/
def mainRead (now : Timestamp) (s : Store) : List NewRecord × Store :=
  if s.rows.isEmpty then
    (load_sample_data now, insert_data s (load_sample_data now))
  else
    (s.rows.map ComplaintRecord.fields, s)

/-- The sidebar filter inputs (src/main.py lines 59–62): an optional date
interval, a chosen status set and a chosen agent set; an empty component
constrains nothing. -/
structure FilterSpec where
  dateRange : Option (Nat × Nat)
  statusSet : List String
  agentSet : List String
deriving DecidableEq, Repr

/-- The filter predicate as the spec defines it (§4.2): the AND of each
present dimension's constraint; an absent/empty dimension is vacuously
true; date membership is inclusive on both bounds over the timestamp
truncated to calendar date; status and agent are exact string membership. -/
def matchesSpec (fs : FilterSpec) (r : NewRecord) : Bool :=
  (match fs.dateRange with
   | none => true
   | some (lo, hi) => decide (lo ≤ r.timestamp.date) && decide (r.timestamp.date ≤ hi))
  && (fs.statusSet.isEmpty || fs.statusSet.contains r.status)
  && (fs.agentSet.isEmpty || fs.agentSet.contains r.agent_name)

/-- The record set the dashboard and export branches actually use
(src/main.py lines 73–78 and 156–163): `df` exactly as read/seeded. The
sidebar collects `date_range`, `status_filter` and `agent_filter`, but no
line of `main` ever applies them to `df`. -/
def displayedRecords (fs : FilterSpec) (df : List NewRecord) : List NewRecord :=
  df

/-- pandas `Series.mean` on a numeric column: the arithmetic mean, or no
value (`NaN`) on an empty column; it never faults. -/
def seriesMean (xs : List ℚ) : Option ℚ :=
  if xs.isEmpty then none else some (xs.sum / xs.length)

/-- The dashboard's global average of `resolution_time`
(src/main.py line 76). -/
def avgResolutionTime (df : List NewRecord) : Option ℚ :=
  seriesMean (df.map NewRecord.resolution_time)

/-- The dashboard's global average of `satisfaction_score`
(src/main.py line 77). -/
def avgSatisfaction (df : List NewRecord) : Option ℚ :=
  seriesMean (df.map NewRecord.satisfaction_score)

/-- The dashboard's global average of `call_duration`
(src/main.py line 78). -/
def avgCallDuration (df : List NewRecord) : Option ℚ :=
  seriesMean (df.map NewRecord.call_duration)

/-- One row of the per-agent rollup table: the three column means and
`cases_handled` (the count of the `timestamp` column, renamed). -/
structure AgentStat where
  agent_name : String
  resolution_time : Option ℚ
  satisfaction_score : Option ℚ
  call_duration : Option ℚ
  cases_handled : Nat
deriving DecidableEq, Repr

/-- The per-agent rollup `df.groupby('agent_name').agg(...)`
(src/main.py lines 95–100): one row per agent value present in `df`, with
the mean of each numeric column over that agent's group and the group
size. pandas `groupby` only produces groups for keys that occur. -/
def agent_stats (df : List NewRecord) : List AgentStat :=
  (df.map NewRecord.agent_name).dedup.map (fun a =>
    let g := df.filter (fun r => r.agent_name == a)
    ⟨a, seriesMean (g.map NewRecord.resolution_time),
        seriesMean (g.map NewRecord.satisfaction_score),
        seriesMean (g.map NewRecord.call_duration),
        g.length⟩)

/-- The per-day trend `df.groupby('date').size()` over
`pd.to_datetime(df['timestamp']).dt.date` (src/main.py lines 109–110):
one (date, count) pair per distinct calendar date present; pandas
`groupby` sorts its keys ascending. -/
def daily_counts (df : List NewRecord) : List (Nat × Nat) :=
  (List.insertionSort (· ≤ ·) (df.map (fun r => r.timestamp.date)).dedup).map
    (fun d => (d, df.countP (fun r => r.timestamp.date == d)))

/-! ### CSV serialization

`df.to_csv(index=False).encode('utf-8')` (src/main.py line 157) writes a
header line naming the columns in the table's declared order, then one line
per row with the cells joined by commas; every line, the last included, is
terminated by a newline. The byte stream is modelled as a `List Char` (the
stream is UTF-8-encoded text) and a record's cells as the strings pandas
renders for them. -/

/-- Join character lists, placing the separator `c` between them. -/
def joinWith (c : Char) : List (List Char) → List Char
  | [] => []
  | [x] => x
  | x :: y :: xs => x ++ c :: joinWith c (y :: xs)

/-- Split a character list at every occurrence of `c` (the separator is
dropped; `n` separators yield `n + 1` parts). -/
def splitOnChar (c : Char) : List Char → List (List Char)
  | [] => [[]]
  | x :: xs =>
    match splitOnChar c xs with
    | [] => [[]]
    | p :: ps => if x = c then [] :: p :: ps else (x :: p) :: ps

/-- A tabular record row as the CSV layer sees it: the nine schema cells,
each already rendered to text, in the column order of `init_db`. -/
structure CsvRow where
  id : List Char
  timestamp : List Char
  location : List Char
  complaint_type : List Char
  resolution_time : List Char
  satisfaction_score : List Char
  agent_name : List Char
  call_duration : List Char
  status : List Char
deriving DecidableEq, Repr

/-- The cells of a row, in schema column order. -/
def CsvRow.cells (r : CsvRow) : List (List Char) :=
  [r.id, r.timestamp, r.location, r.complaint_type, r.resolution_time,
   r.satisfaction_score, r.agent_name, r.call_duration, r.status]

/-- No cell of the row contains the character `c`. -/
def CsvRow.avoids (r : CsvRow) (c : Char) : Prop :=
  ∀ cell ∈ r.cells, c ∉ cell

instance (r : CsvRow) (c : Char) : Decidable (r.avoids c) :=
  inferInstanceAs (Decidable (∀ cell ∈ r.cells, c ∉ cell))

/-- The CSV header line: the column names of table `complaints` in declared
order, comma-separated. -/
def csvHeader : List Char :=
  ("id,timestamp,location,complaint_type,resolution_time," ++
   "satisfaction_score,agent_name,call_duration,status").data

/-- One CSV data line: the row's cells joined by commas. -/
def csvLine (r : CsvRow) : List Char := joinWith ',' r.cells

/-- `df.to_csv(index=False)` (src/main.py line 157): the header line then
one data line per record, each line newline-terminated. -/
def to_csv (rs : List CsvRow) : List Char :=
  ((csvHeader :: rs.map csvLine).map (fun l => l ++ ['\n'])).flatten

/-- Modelled from the spec: CSV read-back is not part of the source (§8 only
states the round-trip property); this is the standard inverse of the
comma/newline framing. Split the stream into lines, require the header,
and read each remaining line as nine comma-separated cells. -/
def parseCsvLine (l : List Char) : Option CsvRow :=
  match splitOnChar ',' l with
  | [a, b, c, d, e, f, g, h, i] => some ⟨a, b, c, d, e, f, g, h, i⟩
  | _ => none

/-- Read back every data line. -/
def parseCsvLines : List (List Char) → Option (List CsvRow)
  | [] => some []
  | l :: ls =>
    match parseCsvLine l, parseCsvLines ls with
    | some r, some rs => some (r :: rs)
    | _, _ => none

/-- Modelled from the spec: parse a CSV byte stream produced by `to_csv`
back into its record rows (see `parseCsvLine`). The final newline yields a
trailing empty fragment, which is dropped. -/
def parse_csv (s : List Char) : Option (List CsvRow) :=
  match splitOnChar '\n' s with
  | [] => none
  | hd :: rest =>
    if hd = csvHeader then parseCsvLines rest.dropLast else none

/-- `to_excel` (src/main.py lines 41–47) renders the same rows and columns
into a workbook with the single sheet `Complaints`. Modelled from the spec:
§4.4 delegates the workbook's binary format to the spreadsheet library and
does not specify it bit-exactly; it is modelled as a deterministic encoding
of the sheet name followed by the sheet's tabular content. -/
def to_excel (rs : List CsvRow) : List Char :=
  "Complaints".data ++ '\n' :: to_csv rs

/-- The two export formats offered by the `Data Export` branch
(src/main.py line 145). -/
inductive ExportFormat
  | excel
  | csv
deriving DecidableEq, Repr

/-- The `Data Export` branch (src/main.py lines 143–163): serialize the
working record set `df` in the chosen format. It opens no store connection:
the produced byte stream is a function of `df` alone and the store is
returned untouched. -/
def data_export (s : Store) (df : List CsvRow) (fmt : ExportFormat) :
    List Char × Store :=
  match fmt with
  | .excel => (to_excel df, s)
  | .csv => (to_csv df, s)

/-! ### Operation traces over the store (for the id-freshness invariant) -/

/-- A store mutation the program can perform: an `insert_data` batch or the
administrative `Clear All Data`. -/
inductive StoreOp
  | insert (rs : List NewRecord)
  | clear
deriving Repr

/-- Apply one operation to the store. -/
def applyOp (s : Store) : StoreOp → Store
  | .insert rs => insert_data s rs
  | .clear => clear_all s

/-- Run a sequence of operations. -/
def runOps (s : Store) (ops : List StoreOp) : Store :=
  ops.foldl applyOp s

/-- The ids the store hands out for a batch inserted in state `s`. -/
def assignedIds (s : Store) (rs : List NewRecord) : List Nat :=
  (assignIds s.seq rs).map ComplaintRecord.id

/-! ### Helper lemmas -/

theorem assignIds_map_fields (seq : Nat) (rs : List NewRecord) :
    (assignIds seq rs).map ComplaintRecord.fields = rs := by
  induction rs generalizing seq with
  | nil => rfl
  | cons r rs ih => simp [assignIds, ih, NewRecord.withId, ComplaintRecord.fields]

theorem assignIds_length (seq : Nat) (rs : List NewRecord) :
    (assignIds seq rs).length = rs.length := by
  induction rs generalizing seq with
  | nil => rfl
  | cons r rs ih => simp [assignIds, ih]

theorem mem_assignedIds {s : Store} {rs : List NewRecord} {i : Nat}
    (h : i ∈ assignedIds s rs) : s.seq < i ∧ i ≤ s.seq + rs.length := by
  unfold assignedIds at h
  induction rs generalizing s with
  | nil => simp [assignIds] at h
  | cons r rs ih =>
    simp only [assignIds, List.map_cons, List.mem_cons] at h
    rcases h with h | h
    · subst h
      refine ⟨Nat.lt_succ_self _, ?_⟩
      show s.seq + 1 ≤ s.seq + (r :: rs).length
      simp only [List.length_cons]
      omega
    · have h2 := ih (s := ⟨s.rows, s.seq + 1⟩) h
      simp only [List.length_cons]
      simp only at h2
      omega

theorem seq_le_applyOp (s : Store) (op : StoreOp) : s.seq ≤ (applyOp s op).seq := by
  cases op <;> simp [applyOp, insert_data, clear_all]

theorem seq_le_runOps (s : Store) (ops : List StoreOp) : s.seq ≤ (runOps s ops).seq := by
  induction ops generalizing s with
  | nil => exact Nat.le_refl _
  | cons op ops ih =>
    calc s.seq ≤ (applyOp s op).seq := seq_le_applyOp s op
      _ ≤ (runOps (applyOp s op) ops).seq := ih _
      _ = (runOps s (op :: ops)).seq := rfl

theorem splitOnChar_ne_nil (c : Char) (s : List Char) : splitOnChar c s ≠ [] := by
  cases s with
  | nil => simp [splitOnChar]
  | cons x xs =>
    simp only [splitOnChar]
    rcases h : splitOnChar c xs with _ | ⟨p, ps⟩
    · simp
    · by_cases hx : x = c <;> simp [hx]

theorem splitOnChar_not_mem {c : Char} {l : List Char} (h : c ∉ l) :
    splitOnChar c l = [l] := by
  induction l with
  | nil => rfl
  | cons x xs ih =>
    simp only [List.mem_cons, not_or] at h
    simp only [splitOnChar, ih h.2]
    simp [Ne.symm h.1, h.1]

theorem splitOnChar_append_sep {c : Char} {l t : List Char} (h : c ∉ l) :
    splitOnChar c (l ++ c :: t) = l :: splitOnChar c t := by
  induction l with
  | nil =>
    simp only [List.nil_append, splitOnChar]
    rcases ht : splitOnChar c t with _ | ⟨p, ps⟩
    · exact absurd ht (splitOnChar_ne_nil c t)
    · simp
  | cons x xs ih =>
    simp only [List.mem_cons, not_or] at h
    have hstep : splitOnChar c ((x :: xs) ++ c :: t) =
        match splitOnChar c (xs ++ c :: t) with
        | [] => [[]]
        | p :: ps => if x = c then [] :: p :: ps else (x :: p) :: ps := rfl
    rw [hstep, ih h.2]
    simp [h.1, Ne.symm h.1]

theorem splitOnChar_lines {c : Char} {ls : List (List Char)}
    (h : ∀ l ∈ ls, c ∉ l) :
    splitOnChar c ((ls.map (fun l => l ++ [c])).flatten) = ls ++ [[]] := by
  induction ls with
  | nil => rfl
  | cons l ls ih =>
    have hl : c ∉ l := h l (List.mem_cons_self l ls)
    have hrest := ih (fun x hx => h x (List.mem_cons_of_mem l hx))
    simp only [List.map_cons, List.flatten_cons, List.append_assoc, List.singleton_append]
    rw [splitOnChar_append_sep hl, hrest]
    simp

theorem not_mem_joinWith {c sep : Char} {parts : List (List Char)}
    (hne : c ≠ sep) (h : ∀ p ∈ parts, c ∉ p) : c ∉ joinWith sep parts := by
  induction parts with
  | nil => simp [joinWith]
  | cons p ps ih =>
    cases ps with
    | nil => simpa [joinWith] using h p (List.mem_cons_self p [])
    | cons q qs =>
      simp only [joinWith, List.mem_append, List.mem_cons, not_or]
      refine ⟨h p (List.mem_cons_self p _), hne, ?_⟩
      have := ih (fun x hx => h x (List.mem_cons_of_mem p hx))
      simpa [joinWith] using this

theorem splitOnChar_joinWith {c : Char} {parts : List (List Char)}
    (hne : parts ≠ []) (h : ∀ p ∈ parts, c ∉ p) :
    splitOnChar c (joinWith c parts) = parts := by
  induction parts with
  | nil => exact absurd rfl hne
  | cons p ps ih =>
    cases ps with
    | nil => simpa [joinWith] using splitOnChar_not_mem (h p (List.mem_cons_self p []))
    | cons q qs =>
      have hq : ∀ x ∈ q :: qs, c ∉ x := fun x hx => h x (List.mem_cons_of_mem p hx)
      have hstep : joinWith c (p :: q :: qs) = p ++ c :: joinWith c (q :: qs) := rfl
      rw [hstep, splitOnChar_append_sep (h p (List.mem_cons_self p _)),
        ih (List.cons_ne_nil q qs) hq]

theorem csvLine_avoids_newline {r : CsvRow} (h : r.avoids '\n') :
    '\n' ∉ csvLine r :=
  not_mem_joinWith (by decide) h

theorem parseCsvLine_csvLine {r : CsvRow} (h : r.avoids ',') :
    parseCsvLine (csvLine r) = some r := by
  unfold parseCsvLine csvLine
  rw [splitOnChar_joinWith (by simp [CsvRow.cells]) h]
  simp [CsvRow.cells]

theorem parseCsvLines_map_csvLine {rs : List CsvRow}
    (h : ∀ r ∈ rs, r.avoids ',') :
    parseCsvLines (rs.map csvLine) = some rs := by
  induction rs with
  | nil => rfl
  | cons r rs ih =>
    have hr := parseCsvLine_csvLine (h r (List.mem_cons_self r rs))
    have hrs := ih (fun x hx => h x (List.mem_cons_of_mem r hx))
    simp [parseCsvLines, hr, hrs]

theorem splitOnChar_to_csv {rs : List CsvRow} (h : ∀ r ∈ rs, r.avoids '\n') :
    splitOnChar '\n' (to_csv rs) = csvHeader :: (rs.map csvLine ++ [[]]) := by
  unfold to_csv
  rw [splitOnChar_lines, List.cons_append]
  intro l hl
  rcases List.mem_cons.mp hl with hl | hl
  · subst hl
    decide
  · rcases List.mem_map.mp hl with ⟨r, hr, rfl⟩
    exact csvLine_avoids_newline (h r hr)

/-! ### Concrete inputs used in witnesses and counterexamples -/

/-- A fixed "current time" for concrete runs. -/
def day0 : Timestamp := ⟨0, 0⟩

/-- A later "current time" for a second concrete run. -/
def day1 : Timestamp := ⟨1, 0⟩

/-- The sample record set read in a concrete run. -/
def sampleDf : List NewRecord := load_sample_data day0

/-- A FilterSpec selecting only status `Resolved` (no date or agent
constraint). -/
def fsResolved : FilterSpec := ⟨none, ["Resolved"], []⟩

/-- A submitted record whose satisfaction score is 7, outside 1–5. -/
def badScoreRecord : NewRecord :=
  ⟨day0, "NSW", "Billing", 15, 7, "Agent1", 120, "Resolved"⟩

/-- A submitted record with negative resolution time and call duration. -/
def badDurationRecord : NewRecord :=
  ⟨day0, "QLD", "Service", -5, 3, "Agent2", -10, "Pending"⟩

/-- A store holding one previously inserted record. -/
def oneRecordStore : Store := insert_data Store.initial (load_sample_data day0)

/-- A concrete tabular row for the CSV serializer. -/
def sampleRow : CsvRow :=
  ⟨"1".data, "2024-01-01 10:00:00".data, "NSW".data, "Billing".data,
   "15.0".data, "4".data, "Agent1".data, "120.0".data, "Resolved".data⟩

/-- A second concrete tabular row for the CSV serializer. -/
def sampleRow2 : CsvRow :=
  ⟨"2".data, "2024-01-02 11:30:00".data, "QLD".data, "Service".data,
   "25.0".data, "3".data, "Agent2".data, "180.0".data, "Pending".data⟩

/-! ### Claims -/

/-- C1: the claim fails on the code. The spec requires the record set used
for dashboard display and export to be the subset of the store's records
satisfying the AND of the present filter dimensions. In `main` the sidebar
filter inputs are collected but never applied: with the 3 sample records
and a FilterSpec selecting status `Resolved` (which matches only 2 of
them), the displayed/exported set is the full unfiltered record set, not
the filtered subset. (Reads indeed never mutate the store, but the
filtering requirement itself is violated.) -/
theorem displayed_set_ignores_filter :
    displayedRecords fsResolved sampleDf ≠ sampleDf.filter (matchesSpec fsResolved)
    ∧ displayedRecords fsResolved sampleDf = sampleDf
    ∧ (sampleDf.filter (matchesSpec fsResolved)).length = 2
    ∧ sampleDf.length = 3 := by
  refine ⟨by decide, rfl, by decide, rfl⟩

/-- C2: the claim fails on the code. `insert_data` performs no validation
whatsoever: a record with satisfaction score 7 (outside 1–5) and a record
with negative resolution time and call duration are both written to the
store unchanged; no `ValidationError` path exists, and the store does not
remain unchanged. -/
theorem insert_accepts_invalid_records :
    (insert_data Store.initial [badScoreRecord, badDurationRecord]).rows.map
        ComplaintRecord.fields = [badScoreRecord, badDurationRecord]
    ∧ badScoreRecord.satisfaction_score > 5
    ∧ badDurationRecord.resolution_time < 0
    ∧ badDurationRecord.call_duration < 0
    ∧ insert_data Store.initial [badScoreRecord, badDurationRecord] ≠ Store.initial := by
  refine ⟨by decide, by decide, by decide, by decide, by decide⟩

theorem mainRead_empty (now : Timestamp) (s : Store) (h : s.rows = []) :
    mainRead now s = (load_sample_data now, insert_data s (load_sample_data now)) := by
  unfold mainRead
  rw [if_pos]
  simp [h]

theorem mainRead_nonempty (now : Timestamp) (s : Store) (h : s.rows ≠ []) :
    mainRead now s = (s.rows.map ComplaintRecord.fields, s) := by
  unfold mainRead
  rw [if_neg]
  simp [h]

/-- C3: bootstrap seeding happens exactly once, and only when a read
observes the store empty. After `clear_all` a raw read returns the empty
set; the read-and-seed path on the empty store performs exactly one
bootstrap insert, whose rows are precisely the fixed 3-record sample set;
a read-and-seed on any non-empty store (hence on the just-seeded store)
inserts nothing and returns the stored records unchanged. -/
theorem bootstrap_seeding (s s2 : Store) (now now2 : Timestamp)
    (h2 : s2.rows ≠ []) :
    read_all (clear_all s) = []
    ∧ (mainRead now (clear_all s)).1 = load_sample_data now
    ∧ ((mainRead now (clear_all s)).2).rows.map ComplaintRecord.fields
        = load_sample_data now
    ∧ ((mainRead now (clear_all s)).2).rows.length = 3
    ∧ mainRead now2 s2 = (s2.rows.map ComplaintRecord.fields, s2)
    ∧ mainRead now2 ((mainRead now (clear_all s)).2)
        = (((mainRead now (clear_all s)).2).rows.map ComplaintRecord.fields,
           (mainRead now (clear_all s)).2) := by
  have hclear : (clear_all s).rows = [] := rfl
  have hseed := mainRead_empty now (clear_all s) hclear
  have hrows : ((mainRead now (clear_all s)).2).rows
      = assignIds s.seq (load_sample_data now) := by
    rw [hseed]
    simp [insert_data, clear_all]
  refine ⟨rfl, by rw [hseed], ?_, ?_, mainRead_nonempty now2 s2 h2, ?_⟩
  · rw [hrows, assignIds_map_fields]
  · rw [hrows, assignIds_length]
    rfl
  · refine mainRead_nonempty now2 _ ?_
    rw [hrows]
    simp [load_sample_data, assignIds]

theorem bootstrap_seeding_witness :
    read_all (clear_all oneRecordStore) = []
    ∧ (mainRead day0 (clear_all oneRecordStore)).1 = load_sample_data day0
    ∧ ((mainRead day0 (clear_all oneRecordStore)).2).rows.map
        ComplaintRecord.fields = load_sample_data day0
    ∧ ((mainRead day0 (clear_all oneRecordStore)).2).rows.length = 3
    ∧ mainRead day1 oneRecordStore
        = (oneRecordStore.rows.map ComplaintRecord.fields, oneRecordStore)
    ∧ mainRead day1 ((mainRead day0 (clear_all oneRecordStore)).2)
        = (((mainRead day0 (clear_all oneRecordStore)).2).rows.map
             ComplaintRecord.fields,
           (mainRead day0 (clear_all oneRecordStore)).2) :=
  bootstrap_seeding oneRecordStore oneRecordStore day0 day1 (by decide)

/-- C4: on a non-empty record set each global metric is the arithmetic
mean (sum divided by record count) of its column; on the empty record set
all three metrics are `none` — the explicit no-value result — and the
computation is total, so no division-by-zero fault can occur. -/
theorem global_averages (df : List NewRecord) (h : df ≠ []) :
    avgResolutionTime df
        = some ((df.map NewRecord.resolution_time).sum / df.length)
    ∧ avgSatisfaction df
        = some ((df.map NewRecord.satisfaction_score).sum / df.length)
    ∧ avgCallDuration df
        = some ((df.map NewRecord.call_duration).sum / df.length)
    ∧ avgResolutionTime [] = none
    ∧ avgSatisfaction [] = none
    ∧ avgCallDuration [] = none := by
  refine ⟨?_, ?_, ?_, rfl, rfl, rfl⟩ <;>
    simp [avgResolutionTime, avgSatisfaction, avgCallDuration, seriesMean, h]

theorem global_averages_witness :
    avgSatisfaction sampleDf
        = some ((sampleDf.map NewRecord.satisfaction_score).sum / sampleDf.length)
    ∧ avgSatisfaction [] = none :=
  ⟨(global_averages sampleDf (by decide)).2.1,
   (global_averages sampleDf (by decide)).2.2.2.2.1⟩

theorem filter_length_eq_count (df : List NewRecord) (a : String) :
    (df.filter (fun r => r.agent_name == a)).length
      = (df.map NewRecord.agent_name).count a := by
  rw [← List.countP_eq_length_filter, List.count, List.countP_map]
  rfl

/-- C5: the per-agent rollup has exactly one row per distinct agent value
occurring in the input (so never an agent with zero matching records);
each row's metrics are the arithmetic means over that agent's group and
`cases_handled` is the group size; and the `cases_handled` values sum to
the size of the input record set. -/
theorem agent_rollup (df : List NewRecord) (st : AgentStat)
    (hst : st ∈ agent_stats df) :
    (agent_stats df).map AgentStat.agent_name = (df.map NewRecord.agent_name).dedup
    ∧ ((agent_stats df).map AgentStat.cases_handled).sum = df.length
    ∧ 0 < st.cases_handled
    ∧ st.cases_handled
        = (df.filter (fun r => r.agent_name == st.agent_name)).length
    ∧ st.resolution_time
        = some (((df.filter (fun r => r.agent_name == st.agent_name)).map
            NewRecord.resolution_time).sum /
          (df.filter (fun r => r.agent_name == st.agent_name)).length)
    ∧ st.satisfaction_score
        = some (((df.filter (fun r => r.agent_name == st.agent_name)).map
            NewRecord.satisfaction_score).sum /
          (df.filter (fun r => r.agent_name == st.agent_name)).length)
    ∧ st.call_duration
        = some (((df.filter (fun r => r.agent_name == st.agent_name)).map
            NewRecord.call_duration).sum /
          (df.filter (fun r => r.agent_name == st.agent_name)).length) := by
  obtain ⟨a, ha, hsteq⟩ := List.mem_map.mp hst
  have hname : st.agent_name = a := by rw [← hsteq]
  have hmem : a ∈ df.map NewRecord.agent_name := List.mem_dedup.mp ha
  have hgroup : df.filter (fun r => r.agent_name == a) ≠ [] := by
    obtain ⟨r, hr, hra⟩ := List.mem_map.mp hmem
    exact List.ne_nil_of_mem
      (List.mem_filter.mpr ⟨hr, by simp [hra]⟩)
  have hglen : 0 < (df.filter (fun r => r.agent_name == a)).length :=
    List.length_pos.mpr hgroup
  have hmean : ∀ f : NewRecord → ℚ,
      seriesMean ((df.filter (fun r => r.agent_name == a)).map f)
        = some (((df.filter (fun r => r.agent_name == a)).map f).sum /
            (df.filter (fun r => r.agent_name == a)).length) := by
    intro f
    simp [seriesMean, hgroup]
  refine ⟨?_, ?_, ?_, ?_, ?_, ?_, ?_⟩
  · simp only [agent_stats, List.map_map]
    exact List.map_id _
  · have hcases : (agent_stats df).map AgentStat.cases_handled
        = (df.map NewRecord.agent_name).dedup.map
            (fun a => (df.filter (fun r => r.agent_name == a)).length) := by
      simp [agent_stats, List.map_map, Function.comp]
    rw [hcases]
    have : ((df.map NewRecord.agent_name).dedup.map
        (fun a => (df.filter (fun r => r.agent_name == a)).length))
        = ((df.map NewRecord.agent_name).dedup.map
            (fun a => (df.map NewRecord.agent_name).count a)) :=
      List.map_congr_left (fun a _ => filter_length_eq_count df a)
    rw [this, List.sum_map_count_dedup_eq_length, List.length_map]
  · rw [← hsteq]
    simpa using hglen
  · rw [hname, ← hsteq]
  · rw [hname, ← hsteq]
    simpa using hmean NewRecord.resolution_time
  · rw [hname, ← hsteq]
    simpa using hmean NewRecord.satisfaction_score
  · rw [hname, ← hsteq]
    simpa using hmean NewRecord.call_duration

theorem agent_rollup_witness :
    ((agent_stats sampleDf).map AgentStat.cases_handled).sum = sampleDf.length
    ∧ 0 < (sampleDf.filter (fun r => r.agent_name == "Agent1")).length := by
  have hst : (⟨"Agent1",
      seriesMean ((sampleDf.filter (fun r => r.agent_name == "Agent1")).map
        NewRecord.resolution_time),
      seriesMean ((sampleDf.filter (fun r => r.agent_name == "Agent1")).map
        NewRecord.satisfaction_score),
      seriesMean ((sampleDf.filter (fun r => r.agent_name == "Agent1")).map
        NewRecord.call_duration),
      (sampleDf.filter (fun r => r.agent_name == "Agent1")).length⟩ : AgentStat)
      ∈ agent_stats sampleDf :=
    List.mem_map.mpr ⟨"Agent1", by decide, rfl⟩
  have h := agent_rollup sampleDf _ hst
  exact ⟨h.2.1, h.2.2.1⟩

/-- A record set whose records fall on two distinct calendar dates. -/
def twoDayDf : List NewRecord :=
  [⟨day1, "NSW", "Billing", 15, 4, "Agent1", 120, "Resolved"⟩,
   ⟨day0, "QLD", "Service", 25, 3, "Agent2", 180, "Pending"⟩,
   ⟨day1, "VIC", "Product", 10, 5, "Agent3", 90, "Resolved"⟩]

/-- C6: the CSV export of any record set (with no embedded newline) is the
header line — naming the nine schema columns in their fixed order — followed
by exactly one data line per record, each newline-terminated (so the stream
splits into header, the record lines in order, and the trailing empty
fragment); for the empty record set it is exactly the header line plus its
newline, not an error. -/
theorem csv_export_shape (rs : List CsvRow) (h : ∀ r ∈ rs, r.avoids '\n') :
    splitOnChar '\n' (to_csv rs) = csvHeader :: (rs.map csvLine ++ [[]])
    ∧ (splitOnChar '\n' (to_csv rs)).length = rs.length + 2
    ∧ to_csv [] = csvHeader ++ ['\n'] := by
  have hs := splitOnChar_to_csv h
  refine ⟨hs, ?_, ?_⟩
  · rw [hs]
    simp
  · simp [to_csv]

theorem csv_export_shape_witness :
    splitOnChar '\n' (to_csv [sampleRow, sampleRow2])
      = csvHeader :: ([sampleRow, sampleRow2].map csvLine ++ [[]])
    ∧ (splitOnChar '\n' (to_csv [sampleRow, sampleRow2])).length
      = [sampleRow, sampleRow2].length + 2
    ∧ to_csv [] = csvHeader ++ ['\n'] :=
  csv_export_shape [sampleRow, sampleRow2] (by decide)

/-- C7: the per-day trend's date keys are exactly the distinct calendar
dates of the input's timestamps (a permutation of their dedup), listed in
strictly ascending order, and each pair's count is the number of records
whose timestamp truncates to that date. -/
theorem daily_trend (df : List NewRecord) (p : Nat × Nat)
    (hp : p ∈ daily_counts df) :
    List.Sorted (· < ·) ((daily_counts df).map Prod.fst)
    ∧ List.Perm ((daily_counts df).map Prod.fst)
        (df.map (fun r => r.timestamp.date)).dedup
    ∧ p.2 = (df.filter (fun r => r.timestamp.date == p.1)).length := by
  have hkeys : (daily_counts df).map Prod.fst
      = List.insertionSort (· ≤ ·) (df.map (fun r => r.timestamp.date)).dedup := by
    simp only [daily_counts, List.map_map]
    exact List.map_id _
  have hperm := List.perm_insertionSort (· ≤ ·)
    (df.map (fun r => r.timestamp.date)).dedup
  refine ⟨?_, ?_, ?_⟩
  · rw [hkeys]
    exact (List.sorted_insertionSort _ _).lt_of_le
      (hperm.nodup_iff.mpr (List.nodup_dedup _))
  · rw [hkeys]
    exact hperm
  · obtain ⟨d, hd, rfl⟩ := List.mem_map.mp hp
    show List.countP (fun r => r.timestamp.date == d) df
        = (List.filter (fun r => r.timestamp.date == d) df).length
    exact List.countP_eq_length_filter _ _

theorem daily_trend_witness :
    List.Sorted (· < ·) ((daily_counts twoDayDf).map Prod.fst)
    ∧ List.Perm ((daily_counts twoDayDf).map Prod.fst)
        (twoDayDf.map (fun r => r.timestamp.date)).dedup
    ∧ ((1, 2) : Nat × Nat).2
      = (twoDayDf.filter (fun r => r.timestamp.date == ((1, 2) : Nat × Nat).1)).length :=
  daily_trend twoDayDf (1, 2) (by decide)

/-- C8: exporting a record set whose cells embed no newline or comma to
CSV and parsing the stream back yields exactly the original record set,
field by field. -/
theorem csv_round_trip (rs : List CsvRow)
    (h : ∀ r ∈ rs, r.avoids '\n' ∧ r.avoids ',') :
    parse_csv (to_csv rs) = some rs := by
  have hsplit := splitOnChar_to_csv (fun r hr => (h r hr).1)
  unfold parse_csv
  rw [hsplit]
  show (if csvHeader = csvHeader then
      parseCsvLines (rs.map csvLine ++ [[]]).dropLast else none) = some rs
  rw [if_pos rfl, List.dropLast_concat]
  exact parseCsvLines_map_csvLine (fun r hr => (h r hr).2)

theorem csv_round_trip_witness :
    parse_csv (to_csv [sampleRow2, sampleRow]) = some [sampleRow2, sampleRow] :=
  csv_round_trip [sampleRow2, sampleRow] (by decide)

/-- C9: both export operations are deterministic pure functions of the
record set: the produced byte stream does not depend on the store state in
any way (two runs from arbitrary store states yield identical streams),
and the export leaves the store exactly as it was. -/
theorem export_deterministic_pure (s1 s2 : Store) (df : List CsvRow)
    (fmt : ExportFormat) :
    (data_export s1 df fmt).1 = (data_export s2 df fmt).1
    ∧ (data_export s1 df fmt).2 = s1 := by
  cases fmt <;> exact ⟨rfl, rfl⟩

/-- C10: every id assigned by an insert is strictly greater than every id
assigned by any earlier insert, whatever operations — `clear_all`
included — happen in between: `DELETE FROM complaints` never resets the
AUTOINCREMENT sequence, so ids are never reused even after the store is
emptied. -/
theorem ids_never_reused (s : Store) (rs rs2 : List NewRecord)
    (ops : List StoreOp) (i j : Nat) (hi : i ∈ assignedIds s rs)
    (hj : j ∈ assignedIds (runOps (insert_data s rs) ops) rs2) :
    i < j := by
  have h1 := mem_assignedIds hi
  have h2 := mem_assignedIds hj
  have h3 : (insert_data s rs).seq = s.seq + rs.length := rfl
  have h4 := seq_le_runOps (insert_data s rs) ops
  omega

theorem ids_never_reused_witness :
    1 ∈ assignedIds Store.initial (load_sample_data day0)
    ∧ 4 ∈ assignedIds
        (runOps (insert_data Store.initial (load_sample_data day0))
          [StoreOp.clear]) [badScoreRecord]
    ∧ (1 : Nat) < 4 :=
  ⟨by decide, by decide,
   ids_never_reused Store.initial (load_sample_data day0) [badScoreRecord]
     [StoreOp.clear] 1 4 (by decide) (by decide)⟩
